import Mathlib

/-!
Verification development for the Canadian Tire stock checker
(`src/main.ts` of charlestietjen/aeb-monitor).

The program is a thin pipeline: load a JSON configuration, fetch a JSON
array of per-store stock records over HTTP, turn it into a snapshot,
and conditionally send a notification.  We embed the pure core of each
function as a Lean definition; effectful inputs (the file read, the HTTP
exchange, the mail-relay invocation) become explicit arguments describing
their outcome, and JavaScript exceptions become `Except` values carrying
the thrown message.  JavaScript numbers that the program never does
arithmetic on (prices) are modelled as rationals; quantities are natural
numbers as the specification declares them.
-/

/-- A thrown JavaScript error, identified by its message string. -/
structure JsError where
  message : String
deriving DecidableEq

/-- `interface StoreStock` of src/main.ts: one per-store result entry.
Optional TS fields become `Option`. -/
structure StoreStock where
  store : String
  quantity : Nat
  name : Option String := none
  location : Option String := none
  price : Option ℚ := none
deriving DecidableEq

/-- `interface StockResponse` of src/main.ts (the StockSnapshot of the
spec): the full result of one check. -/
structure StockResponse where
  stores : List StoreStock
  sku : String
  name : Option String := none
deriving DecidableEq

/-- `interface StockTrackItem` of src/main.ts, restricted to the fields
the program reads: `Store`, `Quantity`, `Description`, `Price` and the
optional nested `Location.Aisle` (flattened here).  The remaining fields
(`min_ago`, `SKU`, `CheckDigit`, `Product`, `PartNumber`, `Promo`,
`SaveStory`, `Corporate`, `isOnline`) are never consulted by the code. -/
structure StockTrackItem where
  Store : String
  Quantity : Nat
  Description : String
  Price : ℚ
  LocationAisle : Option String := none
deriving DecidableEq

/-- `interface EmailConfig` of src/main.ts.  The TS type declares `host`,
`port` and `fromEmail` as required, but `loadConfig` performs no runtime
validation, so at send time the code guards with the JS truthiness test
`!host || !port`; we therefore model `host` and `port` as possibly
absent. -/
structure EmailConfig where
  provider : String
  host : Option String := none
  port : Option Nat := none
  username : Option String := none
  password : Option String := none
  fromEmail : String := ""
  fromName : Option String := none
deriving DecidableEq

/-- `interface Config` of src/main.ts. -/
structure Config where
  email : String
  checkIntervalMinutes : Nat
  stores : List String
  sku : String
  emailConfig : EmailConfig
deriving DecidableEq

/-- JS `a || b` for an optional string `a`: `undefined` and `""` are
falsy, any other string is truthy. -/
def jsOrStr (a : Option String) (b : String) : String :=
  match a with
  | some s => if s = "" then b else s
  | none => b

/-- JS `a || b` for two plain strings. -/
def jsOrS (a b : String) : String :=
  if a = "" then b else a

/-- JS `Array.prototype.join(sep)`. -/
def joinSep (sep : String) : List String → String
  | [] => ""
  | [x] => x
  | x :: xs => x ++ sep ++ joinSep sep xs

/-- JS `Number.prototype.toFixed(2)` on a rational: round to the nearest
hundredth (half up; the program only ever formats non-negative prices)
and print with exactly two decimal digits.  The rounded numerator
`⌊q * 100 + 1 / 2⌋` is computed as `(200 * num + den) fdiv (2 * den)` so
that it evaluates by kernel reduction. -/
def toFixed2 (q : ℚ) : String :=
  let c : Int := Int.fdiv (200 * q.num + (q.den : Int)) (2 * (q.den : Int))
  let sgn := if c < 0 then "-" else ""
  let m := c.natAbs
  let frac := m % 100
  sgn ++ toString (m / 100) ++ "." ++
    (if frac < 10 then "0" ++ toString frac else toString frac)

/-- The query URL `checkStock` builds:
`https://stocktrack.ca/ct/availability.php?store=<comma-joined stores>&sku=<sku>&src=upc`. -/
def buildUrl (config : Config) : String :=
  "https://stocktrack.ca/ct/availability.php?store=" ++
    joinSep "," config.stores ++ "&sku=" ++ config.sku ++ "&src=upc"

/-- One parsed record mapped to a `StoreStock`, exactly as the loop body
of `checkStock` pushes it: quantity copied, a synthesized display name
`Canadian Tire <store>`, the optional aisle, and the price. -/
def itemToStoreStock (item : StockTrackItem) : StoreStock :=
  { store := item.Store
    quantity := item.Quantity
    name := some ("Canadian Tire " ++ item.Store)
    location := item.LocationAisle
    price := some item.Price }

/-- The entry `checkStock` pushes for a configured store when the
response array is empty or null: quantity zero, no optional fields. -/
def outOfStockEntry (store : String) : StoreStock :=
  { store := store, quantity := 0 }

/-- The snapshot `checkStock` returns on an empty or null body: one
out-of-stock entry per configured store, the configured SKU, and the
initial product name `""`. -/
def outOfStockSnapshot (config : Config) : StockResponse :=
  { stores := config.stores.map outOfStockEntry
    sku := config.sku
    name := some "" }

/-- The parsing section of `checkStock` (src/main.ts lines 172-205),
applied to the decoded body (`none` models a JSON `null`).  The guard
`if (jsonData && jsonData.length > 0)` selects the first branch exactly
when the body is a non-empty array; there the product name is
`jsonData[0].Description || ""` and one entry is pushed per record in
array order. -/
def parseSnapshot (config : Config) (body : Option (List StockTrackItem)) :
    StockResponse :=
  match body with
  | some (item0 :: rest) =>
      { stores := (item0 :: rest).map itemToStoreStock
        sku := config.sku
        name := some (jsOrS item0.Description "") }
  | some [] => outOfStockSnapshot config
  | none => outOfStockSnapshot config

/-- What the HTTP exchange produced, from `checkStock`'s point of view:
either `fetch` itself threw (network failure), or a response arrived with
a status code and a body that `response.json()` either decodes (a JSON
value: `null` or an array of records) or fails to decode. -/
inductive BodyResult where
  | malformed (e : JsError)
  | json (v : Option (List StockTrackItem))
deriving DecidableEq

/-- Outcome of the `fetch` call made by `checkStock`. -/
inductive FetchResult where
  | netError (e : JsError)
  | response (status : Nat) (body : BodyResult)
deriving DecidableEq

/-- The `try` block of `checkStock`: propagates the fetch error, throws
`HTTP error! status: <status>` when `response.ok` is false (status
outside 200..299), propagates the decode error, and otherwise returns
the parsed snapshot. -/
def checkStockAttempt (config : Config) (net : FetchResult) :
    Except JsError StockResponse :=
  match net with
  | FetchResult.netError e => Except.error e
  | FetchResult.response status body =>
      if 200 ≤ status ∧ status < 300 then
        match body with
        | BodyResult.malformed e => Except.error e
        | BodyResult.json v => Except.ok (parseSnapshot config v)
      else
        Except.error { message := "HTTP error! status: " ++ toString status }

/-- `checkStock` (src/main.ts lines 146-210): the `catch` clause logs the
inner error and rethrows the fixed message
`Failed to check stock availability`. -/
def checkStock (config : Config) (net : FetchResult) :
    Except JsError StockResponse :=
  match checkStockAttempt config net with
  | Except.ok snap => Except.ok snap
  | Except.error _ =>
      Except.error { message := "Failed to check stock availability" }

/-- A parsed `config.json` document as it pertains to the `Config` shape:
every required field may be absent, because `JSON.parse` accepts any
JSON document and the code merely casts the result (`as Config`). -/
structure JsonConfigDoc where
  email : Option String := none
  checkIntervalMinutes : Option Nat := none
  stores : Option (List String) := none
  sku : Option String := none
  emailConfig : Option EmailConfig := none
deriving DecidableEq

/-- Outcome of reading and parsing `./config.json`: the read can throw
(file missing or unreadable), `JSON.parse` can throw (invalid JSON), or
a document is produced. -/
inductive ConfigFileOutcome where
  | readError (e : JsError)
  | parseError (e : JsError)
  | parsed (doc : JsonConfigDoc)
deriving DecidableEq

/-- `loadConfig` (src/main.ts lines 134-143): any throw from the read or
the parse is caught, logged, and replaced by the fixed
`Failed to load configuration` error; a successfully parsed document is
returned as the configuration with no field validation whatsoever
(the `as Config` cast is a compile-time assertion only). -/
def loadConfig (file : ConfigFileOutcome) : Except JsError JsonConfigDoc :=
  match file with
  | ConfigFileOutcome.readError _ =>
      Except.error { message := "Failed to load configuration" }
  | ConfigFileOutcome.parseError _ =>
      Except.error { message := "Failed to load configuration" }
  | ConfigFileOutcome.parsed doc => Except.ok doc

/-- `stores.filter(store => store.quantity > 0)` at the top of
`sendNotification`. -/
def storesWithStock (stockInfo : StockResponse) : List StoreStock :=
  stockInfo.stores.filter (fun e => decide (0 < e.quantity))

/-- One line of the store-list summary, exactly as the `map` callback in
`sendNotification` builds it: `name || store`, the quantity, then
` at $<price.toFixed(2)>` only when `store.price` is truthy (a price of
0 is falsy in JS), then ` (<location>)` only when `store.location` is
truthy (the empty string is falsy). -/
def storeLine (e : StoreStock) : String :=
  let base := jsOrStr e.name e.store ++ ": " ++ toString e.quantity ++ " in stock"
  let withPrice :=
    match e.price with
    | some p => if p = 0 then base else base ++ " at $" ++ toFixed2 p
    | none => base
  match e.location with
  | some l => if l = "" then withPrice else withPrice ++ " (" ++ l ++ ")"
  | none => withPrice

/-- The `storeList` string of `sendNotification`: the per-store lines of
the in-stock subset joined with newlines. -/
def storeListSummary (stockInfo : StockResponse) : String :=
  joinSep "\x0a" ((storesWithStock stockInfo).map storeLine)

/-- The notification subject line:
`Stock Alert: <name || sku> Available at Canadian Tire`. -/
def mkSubject (displayName : String) : String :=
  "Stock Alert: " ++ displayName ++ " Available at Canadian Tire"

/-- The URL interpolated into both notification bodies:
`https://stocktrack.ca/ct/availability.php?store=<config.stores joined>&sku=<sku>&src=upc`,
where `sku` is the snapshot field destructured in `sendNotification`. -/
def notifyUrl (config : Config) (sku : String) : String :=
  "https://stocktrack.ca/ct/availability.php?store=" ++
    joinSep "," config.stores ++ "&sku=" ++ sku ++ "&src=upc"

/-- The `plainTextContent` template literal of `sendNotification`,
whitespace reproduced verbatim. -/
def notificationText (config : Config) (displayName storeListStr sku : String) :
    String :=
  "\x0a      Stock Alert!\x0a      \x0a      The item you\x27re tracking (" ++
    displayName ++
    ") is now in stock at the following Canadian Tire locations:\x0a      \x0a      " ++
    storeListStr ++ "\x0a      \x0a      Check it out at: " ++
    notifyUrl config sku ++ "\x0a    "

/-- The `htmlContent` template literal of `sendNotification`, whitespace
reproduced verbatim; the hyperlink target is `notifyUrl`. -/
def notificationHtml (config : Config) (displayName storeListStr sku : String) :
    String :=
  "\x0a      <h1>Stock Alert!</h1>\x0a      <p>The item you\x27re tracking <strong>" ++
    displayName ++
    "</strong> is now in stock at the following Canadian Tire locations:</p>\x0a      <pre>" ++
    storeListStr ++
    "</pre>\x0a      <p>Check it out at: <a href=\"" ++ notifyUrl config sku ++
    "\">StockTrack</a></p>\x0a    "

/-- The argument record handed to `sendSmtpEmail`; the TS fields `from`
and `to` are called `sender` and `recipient` here (both are reserved
words in Lean). -/
structure MailMessage where
  host : String
  port : Nat
  username : Option String := none
  password : Option String := none
  sender : String
  recipient : String
  subject : String
  text : String
  html : String
deriving DecidableEq

/-- Outcome of the external mail-relay invocation (`sendSmtpEmail`
shelling out to the system `mail` command): it either returns or
throws. -/
inductive MailResult where
  | ok
  | fail (e : JsError)
deriving DecidableEq

/-- How one `sendNotification` run ends: the early no-stock return, the
console echo, a successful SMTP hand-off, or the outer `catch` logging a
caught error and returning normally. -/
inductive NotifyOutcome where
  | skippedNoStock
  | consoleDelivered (recipient subject body : String)
  | smtpSent (mail : MailMessage)
  | errorLogged (e : JsError)
deriving DecidableEq

/-- The `MailMessage` the SMTP branch of `sendNotification` hands to
`sendSmtpEmail`: `fromName` defaults to `Canadian Tire Stock Checker`,
and the sender is `<fromName> <<fromEmail>>` when `fromName` is truthy,
else `fromEmail` alone. -/
def notifyMail (config : Config) (stockInfo : StockResponse) : MailMessage :=
  let displayName := jsOrStr stockInfo.name stockInfo.sku
  let summary := storeListSummary stockInfo
  let fromName := jsOrStr config.emailConfig.fromName "Canadian Tire Stock Checker"
  { host := config.emailConfig.host.getD ""
    port := config.emailConfig.port.getD 0
    username := config.emailConfig.username
    password := config.emailConfig.password
    sender :=
      if fromName = "" then config.emailConfig.fromEmail
      else fromName ++ " <" ++ config.emailConfig.fromEmail ++ ">"
    recipient := config.email
    subject := mkSubject displayName
    text := notificationText config displayName summary stockInfo.sku
    html := notificationHtml config displayName summary stockInfo.sku }

/-- The `try` block of `sendNotification` (entered only when some store
has stock): in SMTP mode the guard `if (!host || !port)` throws
`SMTP host and port are required` (absent, empty-string host and zero
port are all falsy); otherwise `sendSmtpEmail` is invoked and a relay
failure is logged and rethrown as
`Failed to send email: Error: <message>` (the JS `String(error)`
rendering of the caught `Error`); in console mode the subject and plain
text are echoed to the log. -/
def notifyTryBlock (config : Config) (stockInfo : StockResponse)
    (relay : MailResult) : Except JsError NotifyOutcome :=
  if config.emailConfig.provider = "smtp" then
    if config.emailConfig.host.getD "" = "" ∨ config.emailConfig.port.getD 0 = 0 then
      Except.error { message := "SMTP host and port are required" }
    else
      match relay with
      | MailResult.ok =>
          Except.ok (NotifyOutcome.smtpSent (notifyMail config stockInfo))
      | MailResult.fail e =>
          Except.error { message := "Failed to send email: Error: " ++ e.message }
  else
    Except.ok (NotifyOutcome.consoleDelivered config.email
      (mkSubject (jsOrStr stockInfo.name stockInfo.sku))
      (notificationText config (jsOrStr stockInfo.name stockInfo.sku)
        (storeListSummary stockInfo) stockInfo.sku))

/-- `sendNotification` (src/main.ts lines 213-304) as a whole: the
`Except` result is the exception channel visible to the caller
(`runCheck`).  When no store has stock the function logs and returns
before the `try`; otherwise the outer `catch` turns any throw from the
`try` block into a log line and a normal return. -/
def sendNotificationRun (config : Config) (stockInfo : StockResponse)
    (relay : MailResult) : Except JsError NotifyOutcome :=
  if (storesWithStock stockInfo).length = 0 then
    Except.ok NotifyOutcome.skippedNoStock
  else
    match notifyTryBlock config stockInfo relay with
    | Except.ok o => Except.ok o
    | Except.error e => Except.ok (NotifyOutcome.errorLogged e)

/-- The mail-relay invocations a `sendNotification` run performs: exactly
one, independent of the relay outcome, when control reaches the
`sendSmtpEmail` call (some store in stock, provider `smtp`, host and
port both truthy); none otherwise. -/
def smtpInvocations (config : Config) (stockInfo : StockResponse) :
    List MailMessage :=
  if (storesWithStock stockInfo).length = 0 then []
  else if config.emailConfig.provider = "smtp" then
    if config.emailConfig.host.getD "" = "" ∨ config.emailConfig.port.getD 0 = 0 then
      []
    else [notifyMail config stockInfo]
  else []

/-- `listPre t s`: `t` is a leading segment of `s` (character lists). -/
def listPre : List Char → List Char → Bool
  | [], _ => true
  | _ :: _, [] => false
  | a :: as, b :: bs => a == b && listPre as bs

/-- `subLC t s`: `t` occurs contiguously somewhere in `s`. -/
def subLC (t : List Char) : List Char → Bool
  | [] => t.isEmpty
  | c :: cs => listPre t (c :: cs) || subLC t cs

/-- `strContains s t`: the string `t` occurs contiguously in `s`. -/
def strContains (s t : String) : Bool :=
  subLC t.data s.data

/-- Example record mirroring the end-to-end scenario of the spec:
store `0459`, quantity 3, description `Widget`, price 19.99. -/
def exItem : StockTrackItem :=
  { Store := "0459", Quantity := 3, Description := "Widget"
    Price := mkRat 1999 100, LocationAisle := some "A12" }

/-- Example configuration in console mode, two stores. -/
def exConfig : Config :=
  { email := "a@b.c", checkIntervalMinutes := 60
    stores := ["0459", "0150"], sku := "1502321"
    emailConfig := { provider := "console", fromEmail := "x@y.z" } }

/-- Example configuration in SMTP mode with host and port both absent. -/
def exSmtpBad : Config :=
  { email := "a@b.c", checkIntervalMinutes := 60
    stores := ["0459"], sku := "1502321"
    emailConfig := { provider := "smtp", fromEmail := "x@y.z" } }

/-- Example in-stock entry with a display name, a location and a
non-zero price. -/
def exStockEntry : StoreStock :=
  { store := "0459", quantity := 3
    name := some "Canadian Tire 0459"
    location := some "A12", price := some (mkRat 1999 100) }

/-- Example snapshot with one in-stock entry. -/
def exStockSnap : StockResponse :=
  { stores := [exStockEntry], sku := "1502321", name := some "Widget" }

/-- Example snapshot in which every entry has quantity zero. -/
def exZeroSnap : StockResponse :=
  { stores := [outOfStockEntry "0459", outOfStockEntry "0150"]
    sku := "1502321", name := some "" }

/-- Example in-stock entry whose price is present but equal to 0. -/
def exZeroPriceEntry : StoreStock :=
  { store := "0459", quantity := 1, price := some 0 }

/-- Example snapshot whose single in-stock entry has price 0. -/
def exZeroPriceSnap : StockResponse :=
  { stores := [exZeroPriceEntry], sku := "1502321", name := some "Widget" }

/-- Example parsed configuration document with every field absent. -/
def emptyDoc : JsonConfigDoc := {}

/-- The snapshot `checkStock` yields for `exConfig` on the one-record
response body `[exItem]`. -/
def exSnap1 : StockResponse := parseSnapshot exConfig (some [exItem])

theorem jsOrS_empty (s : String) : jsOrS s "" = s := by
  by_cases h : s = "" <;> simp [jsOrS, h]

theorem listPre_append (t s b : List Char) (h : listPre t s = true) :
    listPre t (s ++ b) = true := by
  induction t generalizing s with
  | nil => simp [listPre]
  | cons a as ih =>
    cases s with
    | nil => simp [listPre] at h
    | cons c cs =>
      simp only [listPre, Bool.and_eq_true] at h
      simp only [List.cons_append, listPre, Bool.and_eq_true]
      exact ⟨h.1, ih cs h.2⟩

theorem listPre_refl_append (t b : List Char) : listPre t (t ++ b) = true := by
  induction t with
  | nil => simp [listPre]
  | cons a as ih =>
    simp only [List.cons_append, listPre, Bool.and_eq_true]
    exact ⟨by simp, ih⟩

theorem subLC_nil (s : List Char) : subLC [] s = true := by
  induction s with
  | nil => rfl
  | cons c cs ih => simp [subLC, listPre]

theorem subLC_of_listPre (t s : List Char) (h : listPre t s = true) :
    subLC t s = true := by
  cases s with
  | nil =>
    cases t with
    | nil => rfl
    | cons a as => simp [listPre] at h
  | cons c cs =>
    simp only [subLC, Bool.or_eq_true]
    exact Or.inl h

theorem subLC_cons (t s : List Char) (c : Char) (h : subLC t s = true) :
    subLC t (c :: s) = true := by
  simp only [subLC, Bool.or_eq_true]
  exact Or.inr h

theorem subLC_append_left (t s a : List Char) (h : subLC t s = true) :
    subLC t (a ++ s) = true := by
  induction a with
  | nil => exact h
  | cons c cs ih => exact subLC_cons t (cs ++ s) c ih

theorem subLC_append_right (t s b : List Char) (h : subLC t s = true) :
    subLC t (s ++ b) = true := by
  induction s with
  | nil =>
    have ht : t = [] := by simpa [subLC, List.isEmpty_iff] using h
    subst ht
    exact subLC_nil b
  | cons c cs ih =>
    simp only [subLC, Bool.or_eq_true] at h
    rcases h with h | h
    · exact subLC_of_listPre _ _ (listPre_append t (c :: cs) b h)
    · exact subLC_cons t (cs ++ b) c (ih h)

theorem strContains_refl (s : String) : strContains s s = true := by
  unfold strContains
  have h := listPre_refl_append s.data []
  rw [List.append_nil] at h
  exact subLC_of_listPre _ _ h

theorem strContains_append_right (s b t : String) (h : strContains s t = true) :
    strContains (s ++ b) t = true := by
  unfold strContains at h ⊢
  rw [String.data_append]
  exact subLC_append_right _ _ _ h

theorem strContains_append_left (a s t : String) (h : strContains s t = true) :
    strContains (a ++ s) t = true := by
  unfold strContains at h ⊢
  rw [String.data_append]
  exact subLC_append_left _ _ _ h

theorem strContains_empty (s : String) : strContains s "" = true := by
  unfold strContains
  exact subLC_nil s.data

theorem joinSep_contains (sep t : String) :
    ∀ (xs : List String) (x : String), x ∈ xs → strContains x t = true →
      strContains (joinSep sep xs) t = true
  | [], x, hx, _ => absurd hx (List.not_mem_nil x)
  | [y], x, hx, h => by
      rcases List.mem_singleton.mp hx with rfl
      simpa [joinSep] using h
  | y :: z :: zs, x, hx, h => by
      rcases List.mem_cons.mp hx with rfl | hmem
      · simp only [joinSep]
        exact strContains_append_right _ _ _ (strContains_append_right _ _ _ h)
      · simp only [joinSep]
        exact strContains_append_left _ _ _ (joinSep_contains sep t (z :: zs) x hmem h)

theorem checkStock_ok_iff (config : Config) (net : FetchResult)
    (snap : StockResponse) :
    checkStock config net = Except.ok snap ↔
      checkStockAttempt config net = Except.ok snap := by
  unfold checkStock
  cases h : checkStockAttempt config net <;> simp [h]

theorem parseSnapshot_sku (config : Config) (body : Option (List StockTrackItem)) :
    (parseSnapshot config body).sku = config.sku := by
  cases body with
  | none => rfl
  | some items => cases items <;> rfl

theorem checkStockAttempt_ok_body (config : Config) (status : Nat)
    (body : Option (List StockTrackItem)) (hok : 200 ≤ status ∧ status < 300) :
    checkStockAttempt config (FetchResult.response status (BodyResult.json body)) =
      Except.ok (parseSnapshot config body) := by
  simp only [checkStockAttempt]
  rw [if_pos hok]

theorem checkStock_ok_body (config : Config) (status : Nat)
    (body : Option (List StockTrackItem)) (hok : 200 ≤ status ∧ status < 300) :
    checkStock config (FetchResult.response status (BodyResult.json body)) =
      Except.ok (parseSnapshot config body) := by
  rw [checkStock_ok_iff]
  exact checkStockAttempt_ok_body config status body hok

theorem checkStock_ok_sku (config : Config) (net : FetchResult)
    (snap : StockResponse) (h : checkStock config net = Except.ok snap) :
    snap.sku = config.sku := by
  rw [checkStock_ok_iff] at h
  cases net with
  | netError e => simp [checkStockAttempt] at h
  | response status body =>
    simp only [checkStockAttempt] at h
    by_cases hs : 200 ≤ status ∧ status < 300
    · rw [if_pos hs] at h
      cases body with
      | malformed e => simp at h
      | json v =>
        simp only [Except.ok.injEq] at h
        rw [← h]
        exact parseSnapshot_sku config v
    · rw [if_neg hs] at h
      simp at h

theorem storeLine_contains_base (e : StoreStock) (t : String)
    (h : strContains
        (jsOrStr e.name e.store ++ ": " ++ toString e.quantity ++ " in stock")
        t = true) :
    strContains (storeLine e) t = true := by
  obtain ⟨st, q, nm, loc, pr⟩ := e
  simp only [storeLine] at *
  cases pr with
  | none =>
    cases loc with
    | none => exact h
    | some l =>
      by_cases hl : l = ""
      · simpa [hl] using h
      · simp only [if_neg hl]
        exact strContains_append_right _ _ _
          (strContains_append_right _ _ _ (strContains_append_right _ _ _ h))
  | some p =>
    by_cases hp : p = 0
    · simp only [if_pos hp]
      cases loc with
      | none => exact h
      | some l =>
        by_cases hl : l = ""
        · simpa [hl] using h
        · simp only [if_neg hl]
          exact strContains_append_right _ _ _
            (strContains_append_right _ _ _ (strContains_append_right _ _ _ h))
    · simp only [if_neg hp]
      have h2 := strContains_append_right _ (" at $" ++ toFixed2 p) _ h
      have h3 : strContains
          ((jsOrStr nm st ++ ": " ++ toString q ++ " in stock") ++ " at $" ++ toFixed2 p)
          t = true := by
        have h4 := strContains_append_right _ " at $" _ h
        exact strContains_append_right _ _ _ h4
      cases loc with
      | none => exact h3
      | some l =>
        by_cases hl : l = ""
        · simpa [hl] using h3
        · simp only [if_neg hl]
          exact strContains_append_right _ _ _
            (strContains_append_right _ _ _ (strContains_append_right _ _ _ h3))

theorem storeLine_contains_name (e : StoreStock) :
    strContains (storeLine e) (jsOrStr e.name e.store) = true := by
  apply storeLine_contains_base
  exact strContains_append_right _ _ _
    (strContains_append_right _ _ _
      (strContains_append_right _ _ _ (strContains_refl _)))

theorem storeLine_contains_quantity (e : StoreStock) :
    strContains (storeLine e) (toString e.quantity) = true := by
  apply storeLine_contains_base
  exact strContains_append_right _ _ _
    (strContains_append_left _ _ _ (strContains_refl _))

theorem storeLine_contains_price (e : StoreStock) (p : ℚ) (hp : e.price = some p)
    (hp0 : ¬ p = 0) : strContains (storeLine e) (toFixed2 p) = true := by
  obtain ⟨st, q, nm, loc, pr⟩ := e
  have hp2 : pr = some p := hp
  subst hp2
  simp only [storeLine, if_neg hp0]
  have hcore : strContains
      ((jsOrStr nm st ++ ": " ++ toString q ++ " in stock") ++ " at $" ++ toFixed2 p)
      (toFixed2 p) = true :=
    strContains_append_left _ _ _ (strContains_refl _)
  cases loc with
  | none => exact hcore
  | some l =>
    by_cases hl : l = ""
    · simpa [hl] using hcore
    · simp only [if_neg hl]
      exact strContains_append_right _ _ _
        (strContains_append_right _ _ _ (strContains_append_right _ _ _ hcore))

theorem storeLine_contains_location (e : StoreStock) (l : String)
    (hl : e.location = some l) : strContains (storeLine e) l = true := by
  by_cases h0 : l = ""
  · subst h0
    exact strContains_empty _
  · obtain ⟨st, q, nm, loc, pr⟩ := e
    have hl2 : loc = some l := hl
    subst hl2
    simp only [storeLine, if_neg h0]
    exact strContains_append_right _ _ _
      (strContains_append_left _ _ _ (strContains_refl _))

/-- C1: for every configuration and every successful HTTP response whose
body parses as a non-empty JSON array of N per-store records,
`checkStock` returns a snapshot containing exactly N entries, one per
record in array order, each entry quantity equal to that record
`Quantity` field verbatim, and the snapshot product name equal to the
first record `Description` field. -/
theorem c1_nonempty_array_snapshot (config : Config) (status : Nat)
    (items : List StockTrackItem) (hok : 200 ≤ status ∧ status < 300)
    (hne : items ≠ []) :
    ∃ snap,
      checkStock config (FetchResult.response status (BodyResult.json (some items))) =
        Except.ok snap ∧
      snap.stores = items.map itemToStoreStock ∧
      snap.stores.length = items.length ∧
      (∀ i (hi : i < items.length) (hi2 : i < snap.stores.length),
        (snap.stores.get ⟨i, hi2⟩).quantity = (items.get ⟨i, hi⟩).Quantity ∧
        (snap.stores.get ⟨i, hi2⟩).store = (items.get ⟨i, hi⟩).Store) ∧
      (∀ it, items.head? = some it → snap.name = some it.Description) := by
  obtain ⟨item0, rest, rfl⟩ := List.exists_cons_of_ne_nil hne
  refine ⟨parseSnapshot config (some (item0 :: rest)),
    checkStock_ok_body config status (some (item0 :: rest)) hok, rfl, ?_, ?_, ?_⟩
  · simp [parseSnapshot]
  · intro i hi hi2
    constructor <;>
      simp only [parseSnapshot, List.get_eq_getElem, List.getElem_map, itemToStoreStock]
  · intro it hit
    rw [List.head?_cons, Option.some.injEq] at hit
    subst hit
    simp [parseSnapshot, jsOrS_empty]

/-- Witness for C1: the end-to-end scenario of the spec, one record for
store 0459 with quantity 3 and description Widget. -/
theorem c1_witness :
    ∃ snap,
      checkStock exConfig (FetchResult.response 200 (BodyResult.json (some [exItem]))) =
        Except.ok snap ∧
      snap.stores = [exItem].map itemToStoreStock ∧
      snap.stores.length = [exItem].length ∧
      (∀ i (hi : i < [exItem].length) (hi2 : i < snap.stores.length),
        (snap.stores.get ⟨i, hi2⟩).quantity = ([exItem].get ⟨i, hi⟩).Quantity ∧
        (snap.stores.get ⟨i, hi2⟩).store = ([exItem].get ⟨i, hi⟩).Store) ∧
      (∀ it, [exItem].head? = some it → snap.name = some it.Description) :=
  c1_nonempty_array_snapshot exConfig 200 [exItem] (by decide) (by decide)

/-- C2: for every configuration, when the response body parses as an
empty JSON array, `checkStock` returns one entry per configured store
identifier, in configuration order, each with quantity zero and no
name, location or price. -/
theorem c2_empty_array_snapshot (config : Config) (status : Nat)
    (hok : 200 ≤ status ∧ status < 300) :
    ∃ snap,
      checkStock config (FetchResult.response status (BodyResult.json (some []))) =
        Except.ok snap ∧
      snap.stores.length = config.stores.length ∧
      (∀ i (hi : i < config.stores.length) (hi2 : i < snap.stores.length),
        snap.stores.get ⟨i, hi2⟩ =
          { store := config.stores.get ⟨i, hi⟩, quantity := 0
            name := none, location := none, price := none }) := by
  refine ⟨outOfStockSnapshot config,
    checkStock_ok_body config status (some []) hok, ?_, ?_⟩
  · simp [outOfStockSnapshot]
  · intro i hi hi2
    simp [outOfStockSnapshot, List.get_eq_getElem, List.getElem_map, outOfStockEntry]

/-- Witness for C2 at the example two-store configuration. -/
theorem c2_witness :
    ∃ snap,
      checkStock exConfig (FetchResult.response 200 (BodyResult.json (some []))) =
        Except.ok snap ∧
      snap.stores.length = exConfig.stores.length ∧
      (∀ i (hi : i < exConfig.stores.length) (hi2 : i < snap.stores.length),
        snap.stores.get ⟨i, hi2⟩ =
          { store := exConfig.stores.get ⟨i, hi⟩, quantity := 0
            name := none, location := none, price := none }) :=
  c2_empty_array_snapshot exConfig 200 (by decide)

/-- C3 counterexample: a parsed document with every required field
absent is returned by `loadConfig` as a successful configuration, so
`loadConfig` does not fail when required fields are missing. -/
theorem c3_counterexample :
    loadConfig (ConfigFileOutcome.parsed emptyDoc) = Except.ok emptyDoc ∧
    emptyDoc.email = none ∧ emptyDoc.checkIntervalMinutes = none ∧
    emptyDoc.stores = none ∧ emptyDoc.sku = none ∧ emptyDoc.emailConfig = none :=
  ⟨rfl, rfl, rfl, rfl, rfl, rfl⟩

/-- C3 amended: `loadConfig` fails with the fixed ConfigLoadError when
the file is missing or unreadable or is not valid JSON, and performs no
validation of required fields: any successfully parsed document is
returned as the configuration unchanged, even with required fields
absent. -/
theorem c3_amended_loadConfig (e : JsError) (doc : JsonConfigDoc) :
    loadConfig (ConfigFileOutcome.readError e) =
      Except.error { message := "Failed to load configuration" } ∧
    loadConfig (ConfigFileOutcome.parseError e) =
      Except.error { message := "Failed to load configuration" } ∧
    loadConfig (ConfigFileOutcome.parsed doc) = Except.ok doc :=
  ⟨rfl, rfl, rfl⟩

/-- C4 counterexample: responses with statuses 403 and 500 yield the
same fixed error `Failed to check stock availability`, whose message
does not contain the status code, so the error delivered to the caller
does not carry the HTTP status. -/
theorem c4_counterexample :
    checkStock exConfig (FetchResult.response 403 (BodyResult.json (some []))) =
      Except.error { message := "Failed to check stock availability" } ∧
    checkStock exConfig (FetchResult.response 500 (BodyResult.json (some []))) =
      Except.error { message := "Failed to check stock availability" } ∧
    strContains "Failed to check stock availability" "403" = false :=
  ⟨rfl, rfl, by decide⟩

/-- C4 amended: on every non-success status the `try` block of
`checkStock` throws `HTTP error! status: <status>` (which is logged),
but the error delivered to the caller is the fixed message
`Failed to check stock availability`, without the status code. -/
theorem c4_amended_status_error (config : Config) (status : Nat)
    (body : BodyResult) (hbad : ¬ (200 ≤ status ∧ status < 300)) :
    checkStockAttempt config (FetchResult.response status body) =
      Except.error { message := "HTTP error! status: " ++ toString status } ∧
    checkStock config (FetchResult.response status body) =
      Except.error { message := "Failed to check stock availability" } := by
  have h1 : checkStockAttempt config (FetchResult.response status body) =
      Except.error { message := "HTTP error! status: " ++ toString status } := by
    simp only [checkStockAttempt]
    rw [if_neg hbad]
  refine ⟨h1, ?_⟩
  unfold checkStock
  rw [h1]

/-- Witness for the amended C4 at status 403. -/
theorem c4_witness :
    checkStockAttempt exConfig (FetchResult.response 403 (BodyResult.json none)) =
      Except.error { message := "HTTP error! status: " ++ toString 403 } ∧
    checkStock exConfig (FetchResult.response 403 (BodyResult.json none)) =
      Except.error { message := "Failed to check stock availability" } :=
  c4_amended_status_error exConfig 403 (BodyResult.json none) (by decide)

/-- C5: for every configuration, snapshot and relay outcome,
`sendNotification` returns normally: the exception channel visible to
the caller never carries an error, whatever the delivery outcome. -/
theorem c5_sendNotification_never_throws (config : Config)
    (stockInfo : StockResponse) (relay : MailResult) :
    ∃ o, sendNotificationRun config stockInfo relay = Except.ok o := by
  unfold sendNotificationRun
  by_cases h : (storesWithStock stockInfo).length = 0
  · rw [if_pos h]
    exact ⟨NotifyOutcome.skippedNoStock, rfl⟩
  · rw [if_neg h]
    cases htb : notifyTryBlock config stockInfo relay with
    | ok o => exact ⟨o, rfl⟩
    | error e => exact ⟨NotifyOutcome.errorLogged e, rfl⟩

/-- C6: when every entry of the snapshot has quantity 0,
`sendNotification` takes the early no-stock return (no delivery action,
no error of any kind) and no mail-relay invocation is performed; the
embedding is pure, so the configuration and snapshot values are
unchanged by construction. -/
theorem c6_all_zero_skips (config : Config) (stockInfo : StockResponse)
    (relay : MailResult) (hz : ∀ e ∈ stockInfo.stores, e.quantity = 0) :
    sendNotificationRun config stockInfo relay =
      Except.ok NotifyOutcome.skippedNoStock ∧
    smtpInvocations config stockInfo = [] := by
  have hfil : storesWithStock stockInfo = [] := by
    unfold storesWithStock
    rw [List.filter_eq_nil_iff]
    intro a ha
    simp [hz a ha]
  constructor
  · unfold sendNotificationRun
    rw [hfil]
    rfl
  · unfold smtpInvocations
    rw [hfil]
    rfl

/-- Witness for C6 at an all-zero two-store snapshot. -/
theorem c6_witness :
    sendNotificationRun exConfig exZeroSnap MailResult.ok =
      Except.ok NotifyOutcome.skippedNoStock ∧
    smtpInvocations exConfig exZeroSnap = [] :=
  c6_all_zero_skips exConfig exZeroSnap MailResult.ok (by decide)

/-- C7: with delivery mode `smtp`, a missing SMTP host or port, and at
least one in-stock entry, the `try` block of `sendNotification` throws
the EmailConfigError `SMTP host and port are required` (which the outer
catch logs), and no mail-relay invocation is performed. -/
theorem c7_smtp_missing_config_error (config : Config)
    (stockInfo : StockResponse) (relay : MailResult)
    (hp : config.emailConfig.provider = "smtp")
    (hmiss : config.emailConfig.host = none ∨ config.emailConfig.port = none)
    (hstock : ∃ e ∈ stockInfo.stores, 0 < e.quantity) :
    notifyTryBlock config stockInfo relay =
      Except.error { message := "SMTP host and port are required" } ∧
    sendNotificationRun config stockInfo relay =
      Except.ok (NotifyOutcome.errorLogged
        { message := "SMTP host and port are required" }) ∧
    smtpInvocations config stockInfo = [] := by
  have hguard : config.emailConfig.host.getD "" = "" ∨
      config.emailConfig.port.getD 0 = 0 := by
    rcases hmiss with h | h
    · left
      rw [h]
      rfl
    · right
      rw [h]
      rfl
  have hlen : ¬ (storesWithStock stockInfo).length = 0 := by
    obtain ⟨e, he, hq⟩ := hstock
    have hmem : e ∈ storesWithStock stockInfo := by
      unfold storesWithStock
      rw [List.mem_filter]
      exact ⟨he, by simpa using hq⟩
    intro hlen0
    rw [List.length_eq_zero] at hlen0
    rw [hlen0] at hmem
    exact List.not_mem_nil e hmem
  have h1 : notifyTryBlock config stockInfo relay =
      Except.error { message := "SMTP host and port are required" } := by
    unfold notifyTryBlock
    rw [hp, if_pos rfl, if_pos hguard]
  refine ⟨h1, ?_, ?_⟩
  · unfold sendNotificationRun
    rw [if_neg hlen, h1]
  · unfold smtpInvocations
    rw [if_neg hlen, hp, if_pos rfl, if_pos hguard]

/-- Witness for C7: SMTP mode with host and port absent, one in-stock
entry. -/
theorem c7_witness :
    notifyTryBlock exSmtpBad exStockSnap MailResult.ok =
      Except.error { message := "SMTP host and port are required" } ∧
    sendNotificationRun exSmtpBad exStockSnap MailResult.ok =
      Except.ok (NotifyOutcome.errorLogged
        { message := "SMTP host and port are required" }) ∧
    smtpInvocations exSmtpBad exStockSnap = [] :=
  c7_smtp_missing_config_error exSmtpBad exStockSnap MailResult.ok rfl
    (Or.inl rfl) (by decide)

/-- C8 counterexample: the claim says the summary contains the price
whenever the entry price is present; but JS truthiness skips a price of
0, so a snapshot whose single in-stock entry has price `some 0` yields
the summary `0459: 1 in stock`, which does not contain `0.00`. -/
theorem c8_counterexample :
    exZeroPriceEntry ∈ storesWithStock exZeroPriceSnap ∧
    exZeroPriceEntry.price = some 0 ∧
    toFixed2 0 = "0.00" ∧
    storeListSummary exZeroPriceSnap = "0459: 1 in stock" ∧
    strContains (storeListSummary exZeroPriceSnap) (toFixed2 0) = false := by
  refine ⟨?_, ?_, ?_, ?_, ?_⟩ <;> decide

/-- C8 amended: the store-list summary contains, for each in-stock
entry, its display name (or raw store identifier when no display name
is set) and its quantity; its price formatted with two decimals
whenever the price is present and non-zero (a present price of 0 is
skipped by the JS truthiness test); and its location whenever present;
entries with quantity 0 are excluded. -/
theorem c8_amended_summary (stockInfo : StockResponse) (e : StoreStock)
    (he : e ∈ storesWithStock stockInfo) :
    strContains (storeListSummary stockInfo)
      (match e.name with | some n => n | none => e.store) = true ∧
    strContains (storeListSummary stockInfo) (toString e.quantity) = true ∧
    (∀ p : ℚ, e.price = some p → ¬ p = 0 →
      strContains (storeListSummary stockInfo) (toFixed2 p) = true) ∧
    (∀ l : String, e.location = some l →
      strContains (storeListSummary stockInfo) l = true) ∧
    (∀ z ∈ stockInfo.stores, z.quantity = 0 → z ∉ storesWithStock stockInfo) := by
  have hmem : storeLine e ∈ (storesWithStock stockInfo).map storeLine :=
    List.mem_map_of_mem storeLine he
  have lift : ∀ t : String, strContains (storeLine e) t = true →
      strContains (storeListSummary stockInfo) t = true := by
    intro t ht
    unfold storeListSummary
    exact joinSep_contains _ t _ _ hmem ht
  refine ⟨?_, lift _ (storeLine_contains_quantity e), ?_, ?_, ?_⟩
  · cases hn : e.name with
    | none =>
      have hj : jsOrStr e.name e.store = e.store := by
        rw [hn]
        rfl
      exact lift _ (hj ▸ storeLine_contains_name e)
    | some n =>
      by_cases h0 : n = ""
      · subst h0
        exact strContains_empty _
      · have hj : jsOrStr e.name e.store = n := by
          rw [hn]
          simp [jsOrStr, h0]
        exact lift _ (hj ▸ storeLine_contains_name e)
  · intro p hpr hp0
    exact lift _ (storeLine_contains_price e p hpr hp0)
  · intro l hl
    exact lift _ (storeLine_contains_location e l hl)
  · intro z hz h0 hmem2
    unfold storesWithStock at hmem2
    rw [List.mem_filter] at hmem2
    simp [h0] at hmem2

/-- Witness for the amended C8 at a snapshot with one in-stock entry
carrying a display name, a non-zero price and a location. -/
theorem c8_witness :
    strContains (storeListSummary exStockSnap)
      (match exStockEntry.name with | some n => n | none => exStockEntry.store) = true ∧
    strContains (storeListSummary exStockSnap) (toString exStockEntry.quantity) = true ∧
    (∀ p : ℚ, exStockEntry.price = some p → ¬ p = 0 →
      strContains (storeListSummary exStockSnap) (toFixed2 p) = true) ∧
    (∀ l : String, exStockEntry.location = some l →
      strContains (storeListSummary exStockSnap) l = true) ∧
    (∀ z ∈ exStockSnap.stores, z.quantity = 0 → z ∉ storesWithStock exStockSnap) :=
  c8_amended_summary exStockSnap exStockEntry (by decide)

/-- C9: for every configuration and every snapshot `checkStock`
delivers for it, the URL interpolated at the hyperlink position of the
HTML notification body equals, as a string, the query URL `checkStock`
builds and fetches. -/
theorem c9_hyperlink_matches_query (config : Config) (net : FetchResult)
    (snap : StockResponse) (h : checkStock config net = Except.ok snap) :
    notifyUrl config snap.sku = buildUrl config ∧
    ∀ displayName storeListStr : String, ∃ pre post : String,
      notificationHtml config displayName storeListStr snap.sku =
        pre ++ buildUrl config ++ post := by
  have hsku : snap.sku = config.sku := checkStock_ok_sku config net snap h
  constructor
  · simp only [hsku, notifyUrl, buildUrl]
  · intro dn sl
    refine ⟨"\x0a      <h1>Stock Alert!</h1>\x0a      <p>The item you\x27re tracking <strong>" ++
      dn ++ "</strong> is now in stock at the following Canadian Tire locations:</p>\x0a      <pre>" ++
      sl ++ "</pre>\x0a      <p>Check it out at: <a href=\"",
      "\">StockTrack</a></p>\x0a    ", ?_⟩
    rw [hsku]
    rfl

/-- Witness for C9 at the example configuration and the snapshot
produced from a one-record body. -/
theorem c9_witness :
    notifyUrl exConfig exSnap1.sku = buildUrl exConfig ∧
    ∀ displayName storeListStr : String, ∃ pre post : String,
      notificationHtml exConfig displayName storeListStr exSnap1.sku =
        pre ++ buildUrl exConfig ++ post :=
  c9_hyperlink_matches_query exConfig
    (FetchResult.response 200 (BodyResult.json (some [exItem]))) exSnap1 rfl

/-- C10: on every success path of `checkStock` (array, empty array or
null body) the snapshot sku is the configured SKU unchanged, and on an
empty array (or null body) the product name is the empty string, so the
`name || sku` fallback used by the subject line and the log line yields
the SKU. -/
theorem c10_sku_preserved (config : Config) (status : Nat)
    (body : Option (List StockTrackItem)) (hok : 200 ≤ status ∧ status < 300) :
    ∃ snap,
      checkStock config (FetchResult.response status (BodyResult.json body)) =
        Except.ok snap ∧
      snap.sku = config.sku ∧
      ((body = some [] ∨ body = none) →
        snap.name = some "" ∧ jsOrStr snap.name snap.sku = config.sku) := by
  refine ⟨parseSnapshot config body, checkStock_ok_body config status body hok,
    parseSnapshot_sku config body, ?_⟩
  rintro (rfl | rfl)
  · exact ⟨rfl, by simp [parseSnapshot, outOfStockSnapshot, jsOrStr]⟩
  · exact ⟨rfl, by simp [parseSnapshot, outOfStockSnapshot, jsOrStr]⟩

/-- Witness for C10 at the empty-array body. -/
theorem c10_witness :
    ∃ snap,
      checkStock exConfig (FetchResult.response 200 (BodyResult.json (some []))) =
        Except.ok snap ∧
      snap.sku = exConfig.sku ∧
      ((some ([] : List StockTrackItem) = some [] ∨
          some ([] : List StockTrackItem) = none) →
        snap.name = some "" ∧ jsOrStr snap.name snap.sku = exConfig.sku) :=
  c10_sku_preserved exConfig 200 (some []) (by decide)
